import Mathlib

/-!
Verification of the group transaction signing and submission pipeline of the
algorand-util repository, shallowly embedded in Lean 4.

The external Ledger SDK primitives (binary transaction encoding, signature
production, base64 transport codec) are out of scope of the spec; they are
modelled here by concrete injective stand-in functions over `List Nat` byte
strings.  Everything else follows the TypeScript source of
`src/index.ts` and `src/signer/WalletConnectSigner.ts` line by line.
-/

namespace AlgorandUtil

/-- Stand-in for the external base64 encoder (`Buffer.from(bytes).toString("base64")`):
an injective map from byte lists to strings, with `[] ↔ ""`. -/
def b64OfBytes (bs : List Nat) : String := String.mk (bs.map Char.ofNat)

/-- Stand-in for the external base64 decoder (`new Uint8Array(Buffer.from(s, "base64"))`). -/
def bytesOfB64 (s : String) : List Nat := s.toList.map Char.toNat

/-- A wallet: an address plus an optional secret key (`Wallet` in `util/types.ts`). -/
structure Wallet where
  addr : String
  sk : Option (List Nat) := none
deriving DecidableEq

/-- `FalseyWallet = Wallet | undefined` from `util/types.ts`. -/
abbrev FalseyWallet := Option Wallet

/-- An unsigned ledger transaction, as far as the pipeline inspects it: an
opaque payload (modelled by the fields the opt-in helpers populate) plus the
mutable group identifier slot that `assignGroupID` fills in. -/
structure Txn where
  sender : String
  receiver : String
  assetIndex : Nat
  amount : Nat
  group : Option Nat := none
deriving DecidableEq

instance : Inhabited Txn := ⟨⟨"", "", 0, 0, none⟩⟩

/-- Stand-in for the external `algosdk.encodeUnsignedTransaction`: a concrete
injective byte encoding of the transaction. -/
def encodeUnsignedTransaction (t : Txn) : List Nat :=
  (t.sender.toList.map Char.toNat) ++ [0] ++
  (t.receiver.toList.map Char.toNat) ++ [0, t.assetIndex, t.amount] ++
  (match t.group with
   | none => [0]
   | some g => [1, g])

/-- Stand-in for the external `txn.signTxn(sk)`: the signed encoding determined
by the transaction and the secret key. -/
def signTxn (t : Txn) (sk : List Nat) : List Nat :=
  sk ++ [0] ++ encodeUnsignedTransaction t

/-- Stand-in for the group identifier computed by `algosdk.assignGroupID` over
the whole ordered batch. -/
def computeGroupID (txns : List Txn) : Nat :=
  (txns.map (fun t => (encodeUnsignedTransaction t).sum)).sum + txns.length

/-- `algosdk.assignGroupID(txns)`: embed one group id, computed over the entire
ordered batch, into every member transaction. -/
def assignGroupID (txns : List Txn) : List Txn :=
  txns.map (fun t => { t with group := some (computeGroupID txns) })

/-- `SignTxnRequest` from `util/types.ts`: the transport envelope
`{txn, message, stxn?, signers?}`. -/
structure SignTxnRequest where
  txn : String
  message : String
  stxn : Option String := none
  signers : Option (List Wallet) := none
deriving DecidableEq

/-- The fixed provenance message of `generateGroupTransactionSigningRequest`. -/
def gradianMessage : String := "Gradian Transaction Signing Request"

/-- The error conditions the embedded operations can raise (each corresponds to
a `throw` site, or for `incompleteSigning` to the decode failure of a missing
`stxn` field, in the TypeScript source). -/
inductive UtilError where
  | missingKey
  | incompleteSigning
  | noSuchGlobalState
  | notOptedIn
  | unhandledStateType
deriving DecidableEq

/-- `accounts[idx]` in JavaScript: out-of-range indexing yields `undefined`,
collapsed with an `undefined` entry by `Option.join`. -/
def walletAt (accounts : List FalseyWallet) (idx : Nat) : FalseyWallet :=
  (accounts[idx]?).join

/-- One loop iteration of `generateGroupTransactionSigningRequest`
(`src/index.ts` lines 122-154).  The guard is `accounts[idx]?.sk !== undefined`;
inside it the source re-checks `!wallet.sk` and throws
"Wallet does not have a secret key", but a defined `Uint8Array` is always
truthy, so that branch is dead code, kept here verbatim. -/
def signSlot (gtxns : List Txn) (accounts : List FalseyWallet) (idx : Nat) :
    Except UtilError SignTxnRequest :=
  match (walletAt accounts idx).bind Wallet.sk with
  | some sk =>
    if (some sk : Option (List Nat)).isNone then
      Except.error UtilError.missingKey
    else
      Except.ok
        { stxn := some (b64OfBytes (signTxn (gtxns.getD idx default) sk))
          txn := b64OfBytes (encodeUnsignedTransaction (gtxns.getD idx default))
          message := gradianMessage
          signers := some [] }
  | none =>
    Except.ok
      { txn := b64OfBytes (encodeUnsignedTransaction (gtxns.getD idx default))
        message := gradianMessage }

/-- The value `signSlot` always succeeds with. -/
def signSlotPure (gtxns : List Txn) (accounts : List FalseyWallet) (idx : Nat) :
    SignTxnRequest :=
  match (walletAt accounts idx).bind Wallet.sk with
  | some sk =>
    { stxn := some (b64OfBytes (signTxn (gtxns.getD idx default) sk))
      txn := b64OfBytes (encodeUnsignedTransaction (gtxns.getD idx default))
      message := gradianMessage
      signers := some [] }
  | none =>
    { txn := b64OfBytes (encodeUnsignedTransaction (gtxns.getD idx default))
      message := gradianMessage }

/-- `generateGroupTransactionSigningRequest(txns, accounts)`
(`src/index.ts` lines 113-158): assign the group id, then build one envelope
per transaction index. -/
def generateGroupTransactionSigningRequest (txns : List Txn)
    (accounts : List FalseyWallet) : Except UtilError (List SignTxnRequest) :=
  let gtxns := assignGroupID txns
  (List.range txns.length).mapM (signSlot gtxns accounts)

theorem signSlot_eq_ok (gtxns : List Txn) (accounts : List FalseyWallet)
    (idx : Nat) : signSlot gtxns accounts idx =
      Except.ok (signSlotPure gtxns accounts idx) := by
  unfold signSlot signSlotPure
  cases (walletAt accounts idx).bind Wallet.sk <;> simp

theorem exceptMapM_loop {α β ε : Type} (f : α → β) (l : List α) :
    ∀ acc : List β,
      List.mapM.loop (fun x => (Except.ok (f x) : Except ε β)) l acc =
        Except.ok (acc.reverse ++ l.map f) := by
  induction l with
  | nil => intro acc; simp [List.mapM.loop]; rfl
  | cons a as ih =>
    intro acc
    have hstep : List.mapM.loop (fun x => (Except.ok (f x) : Except ε β))
        (a :: as) acc =
        List.mapM.loop (fun x => (Except.ok (f x) : Except ε β)) as
          (f a :: acc) := rfl
    rw [hstep, ih]
    simp

theorem exceptMapM_ok {α β ε : Type} (f : α → β) (l : List α) :
    (l.mapM (fun x => (Except.ok (f x) : Except ε β))) = Except.ok (l.map f) := by
  have h := exceptMapM_loop (ε := ε) f l ([] : List β)
  simpa [List.mapM] using h

theorem generate_eq_map (txns : List Txn) (accounts : List FalseyWallet) :
    generateGroupTransactionSigningRequest txns accounts =
      Except.ok ((List.range txns.length).map
        (signSlotPure (assignGroupID txns) accounts)) := by
  show (List.range txns.length).mapM (signSlot (assignGroupID txns) accounts) =
    Except.ok ((List.range txns.length).map
      (signSlotPure (assignGroupID txns) accounts))
  have hf : signSlot (assignGroupID txns) accounts =
      fun i => Except.ok (signSlotPure (assignGroupID txns) accounts i) :=
    funext (signSlot_eq_ok _ _)
  rw [hf]
  exact exceptMapM_ok _ _

theorem signSlotPure_of_sk (gtxns : List Txn) (accounts : List FalseyWallet)
    (i : Nat) (sk : List Nat)
    (h : (walletAt accounts i).bind Wallet.sk = some sk) :
    signSlotPure gtxns accounts i =
      { stxn := some (b64OfBytes (signTxn (gtxns.getD i default) sk))
        txn := b64OfBytes (encodeUnsignedTransaction (gtxns.getD i default))
        message := gradianMessage
        signers := some [] } := by
  unfold signSlotPure
  rw [h]

theorem signSlotPure_of_noKey (gtxns : List Txn) (accounts : List FalseyWallet)
    (i : Nat) (h : (walletAt accounts i).bind Wallet.sk = none) :
    signSlotPure gtxns accounts i =
      { txn := b64OfBytes (encodeUnsignedTransaction (gtxns.getD i default))
        message := gradianMessage } := by
  unfold signSlotPure
  rw [h]

theorem generate_getElem (txns : List Txn) (accounts : List FalseyWallet)
    (i : Nat) (hi : i < txns.length) :
    ((List.range txns.length).map
        (signSlotPure (assignGroupID txns) accounts))[i]? =
      some (signSlotPure (assignGroupID txns) accounts i) := by
  rw [List.getElem?_map, List.getElem?_range hi]
  rfl

/-- C1: for equal-length transaction and wallet sequences, the group signing
operation returns one envelope per input index, in order; a slot whose wallet
is present with a private key gets both the unsigned and the signed encoding,
`signers = []` and the fixed provenance message; a slot whose wallet is absent
gets only the unsigned encoding and the message, with `stxn` and `signers`
entirely absent. -/
theorem group_signing_envelope_shapes (txns : List Txn)
    (accounts : List FalseyWallet) (_hlen : accounts.length = txns.length) :
    ∃ res, generateGroupTransactionSigningRequest txns accounts =
        Except.ok res ∧
      res.length = txns.length ∧
      ∀ i, i < txns.length →
        (∀ w sk, accounts[i]? = some (some w) → w.sk = some sk →
          res[i]? = some
            { txn := b64OfBytes (encodeUnsignedTransaction
                ((assignGroupID txns).getD i default))
              message := gradianMessage
              stxn := some (b64OfBytes
                (signTxn ((assignGroupID txns).getD i default) sk))
              signers := some [] }) ∧
        (accounts[i]? = some none →
          res[i]? = some
            { txn := b64OfBytes (encodeUnsignedTransaction
                ((assignGroupID txns).getD i default))
              message := gradianMessage
              stxn := none
              signers := none }) := by
  refine ⟨_, generate_eq_map txns accounts, by simp, ?_⟩
  intro i hi
  constructor
  · intro w sk hacc hsk
    rw [generate_getElem txns accounts i hi]
    rw [signSlotPure_of_sk (assignGroupID txns) accounts i sk]
    unfold walletAt
    rw [hacc]
    simp [Option.join, hsk]
  · intro hacc
    rw [generate_getElem txns accounts i hi]
    rw [signSlotPure_of_noKey (assignGroupID txns) accounts i]
    unfold walletAt
    rw [hacc]
    simp [Option.join]

/-- Concrete two-transaction batch used as the C1 witness input. -/
def c1Txns : List Txn :=
  [{ sender := "A", receiver := "B", assetIndex := 7, amount := 1 },
   { sender := "C", receiver := "D", assetIndex := 8, amount := 2 }]

/-- Concrete wallet assignment for the C1 witness: slot 0 holds a key,
slot 1 is absent. -/
def c1Accounts : List FalseyWallet :=
  [some { addr := "A", sk := some [1, 2] }, none]

/-- Witness for C1 at a concrete input: one signed slot and one absent slot. -/
theorem group_signing_envelope_shapes_witness :
    ∃ res, generateGroupTransactionSigningRequest c1Txns c1Accounts =
        Except.ok res ∧
      res.length = 2 ∧
      res[0]? = some
        { txn := b64OfBytes (encodeUnsignedTransaction
            ((assignGroupID c1Txns).getD 0 default))
          message := gradianMessage
          stxn := some (b64OfBytes
            (signTxn ((assignGroupID c1Txns).getD 0 default) [1, 2]))
          signers := some [] } ∧
      res[1]? = some
        { txn := b64OfBytes (encodeUnsignedTransaction
            ((assignGroupID c1Txns).getD 1 default))
          message := gradianMessage
          stxn := none
          signers := none } := by
  obtain ⟨res, hres, hlen, hslots⟩ :=
    group_signing_envelope_shapes c1Txns c1Accounts rfl
  refine ⟨res, hres, hlen, ?_, ?_⟩
  · exact (hslots 0 (by decide)).1 { addr := "A", sk := some [1, 2] } [1, 2]
      rfl rfl
  · exact (hslots 1 (by decide)).2 rfl

/-- C2 counterexample: a wallet that is present but carries no private key
does not make the group signing operation fail; the slot silently becomes an
unsigned envelope, because the source guard `accounts[idx]?.sk !== undefined`
routes it to the unsigned branch. -/
theorem present_keyless_wallet_no_error :
    generateGroupTransactionSigningRequest
        [{ sender := "A", receiver := "A", assetIndex := 1, amount := 0 }]
        [some { addr := "A", sk := none }] =
      Except.ok
        [{ txn := b64OfBytes (encodeUnsignedTransaction
             ((assignGroupID
               [{ sender := "A", receiver := "A", assetIndex := 1,
                  amount := 0 }]).getD 0 default))
           message := gradianMessage }] := by
  rw [generate_eq_map]
  rfl

/-- C2 amended: a wallet that is present but has no private key is treated
exactly like an absent wallet — the operation succeeds and that slot gets only
the unsigned encoding and the message, with no `stxn` and no `signers`. -/
theorem present_keyless_wallet_unsigned (txns : List Txn)
    (accounts : List FalseyWallet) (i : Nat) (w : Wallet)
    (hi : i < txns.length) (hacc : accounts[i]? = some (some w))
    (hsk : w.sk = none) :
    ∃ res, generateGroupTransactionSigningRequest txns accounts =
        Except.ok res ∧
      res[i]? = some
        { txn := b64OfBytes (encodeUnsignedTransaction
            ((assignGroupID txns).getD i default))
          message := gradianMessage
          stxn := none
          signers := none } := by
  refine ⟨_, generate_eq_map txns accounts, ?_⟩
  rw [generate_getElem txns accounts i hi]
  rw [signSlotPure_of_noKey (assignGroupID txns) accounts i]
  unfold walletAt
  rw [hacc]
  simp [Option.join, hsk]

/-- Witness for the amended C2 at a concrete input. -/
theorem present_keyless_wallet_unsigned_witness :
    ∃ res, generateGroupTransactionSigningRequest
        [{ sender := "A", receiver := "A", assetIndex := 1, amount := 0 }]
        [some { addr := "A", sk := none }] = Except.ok res ∧
      res[0]? = some
        { txn := b64OfBytes (encodeUnsignedTransaction
            ((assignGroupID
              [{ sender := "A", receiver := "A", assetIndex := 1,
                 amount := 0 }]).getD 0 default))
          message := gradianMessage
          stxn := none
          signers := none } :=
  present_keyless_wallet_unsigned
    [{ sender := "A", receiver := "A", assetIndex := 1, amount := 0 }]
    [some { addr := "A", sk := none }] 0 { addr := "A", sk := none }
    (by decide) rfl rfl

/-- One element of the `signedTxns.map` in `submitSignedTransactions`:
`new Uint8Array(Buffer.from(stxn.stxn, "base64"))`.  When the `stxn` field is
absent, `Buffer.from(undefined, "base64")` throws, which is the
incomplete-signing failure; it happens while the batch is being decoded,
before `sendRawTransaction` (the network broadcast) is reached. -/
def submitDecode (s : SignTxnRequest) : Except UtilError (List Nat) :=
  match s.stxn with
  | some b => Except.ok (bytesOfB64 b)
  | none => Except.error UtilError.incompleteSigning

/-- `submitSignedTransactions(signedTxns)` (`src/index.ts` lines 165-173),
up to the decoded byte batch: an `ok` result is the `Uint8Array[]` handed to
`sendRawTransaction`, i.e. the broadcast payload; an `error` result is thrown
before any network call. -/
def submitSignedTransactions (signedTxns : List SignTxnRequest) :
    Except UtilError (List (List Nat)) :=
  signedTxns.mapM submitDecode

theorem except_bind_ok {ε α β : Type} (a : α) (k : α → Except ε β) :
    (Except.ok a >>= k) = k a := rfl

theorem except_bind_error {ε α β : Type} (e : ε) (k : α → Except ε β) :
    (Except.error e >>= k) = Except.error e := rfl

theorem mapM_loop_cons {α β ε : Type} (f : α → Except ε β) (a : α)
    (as : List α) (acc : List β) :
    List.mapM.loop f (a :: as) acc =
      f a >>= fun y => List.mapM.loop f as (y :: acc) := rfl

theorem submit_loop_err (l : List SignTxnRequest) :
    ∀ acc, (∃ s ∈ l, s.stxn = none) →
      List.mapM.loop submitDecode l acc =
        Except.error UtilError.incompleteSigning := by
  induction l with
  | nil => intro acc h; simp at h
  | cons a as ih =>
    intro acc h
    rw [mapM_loop_cons]
    cases hstxn : a.stxn with
    | none =>
      have hd : submitDecode a = Except.error UtilError.incompleteSigning := by
        unfold submitDecode; rw [hstxn]
      rw [hd, except_bind_error]
    | some b =>
      have hd : submitDecode a = Except.ok (bytesOfB64 b) := by
        unfold submitDecode; rw [hstxn]
      rw [hd, except_bind_ok]
      obtain ⟨s, hs, hnone⟩ := h
      rcases List.mem_cons.mp hs with rfl | hmem
      · rw [hstxn] at hnone; exact absurd hnone (by simp)
      · exact ih _ ⟨s, hmem, hnone⟩

theorem submit_loop_ok (l : List SignTxnRequest) :
    ∀ acc, (∀ s ∈ l, s.stxn ≠ none) →
      ∃ bs, List.mapM.loop submitDecode l acc = Except.ok bs := by
  induction l with
  | nil => intro acc _; exact ⟨acc.reverse, rfl⟩
  | cons a as ih =>
    intro acc h
    rw [mapM_loop_cons]
    cases hstxn : a.stxn with
    | none => exact absurd hstxn (h a (List.mem_cons_self a as))
    | some b =>
      have hd : submitDecode a = Except.ok (bytesOfB64 b) := by
        unfold submitDecode; rw [hstxn]
      rw [hd, except_bind_ok]
      exact ih _ (fun s hs => h s (List.mem_cons_of_mem a hs))

/-- C3: submission fails with the incomplete-signing error if and only if at
least one envelope in the batch lacks a signed encoding, and in that case no
broadcast payload is produced (the failure precedes the network call). -/
theorem submit_incomplete_iff (signedTxns : List SignTxnRequest) :
    (submitSignedTransactions signedTxns =
        Except.error UtilError.incompleteSigning ↔
      ∃ s ∈ signedTxns, s.stxn = none) ∧
    (∀ bs, submitSignedTransactions signedTxns = Except.ok bs →
      ∀ s ∈ signedTxns, s.stxn ≠ none) := by
  have hiff : submitSignedTransactions signedTxns =
      Except.error UtilError.incompleteSigning ↔
      ∃ s ∈ signedTxns, s.stxn = none := by
    constructor
    · intro herr
      by_contra hnone
      push_neg at hnone
      obtain ⟨bs, hbs⟩ := submit_loop_ok signedTxns [] hnone
      have : Except.ok (ε := UtilError) bs =
          Except.error UtilError.incompleteSigning := by
        rw [← hbs]; rw [← herr]; rfl
      simp at this
    · intro h
      show List.mapM.loop submitDecode signedTxns [] = _
      exact submit_loop_err signedTxns [] h
  refine ⟨hiff, ?_⟩
  intro bs hok s hs hnone
  have herr := hiff.mpr ⟨s, hs, hnone⟩
  rw [hok] at herr
  simp at herr

/-- Witness for C3: a batch with one unsigned envelope fails with the
incomplete-signing error. -/
theorem submit_incomplete_iff_witness :
    submitSignedTransactions [{ txn := "t", message := "m" }] =
      Except.error UtilError.incompleteSigning :=
  (submit_incomplete_iff [{ txn := "t", message := "m" }]).1.mpr
    ⟨{ txn := "t", message := "m" }, List.mem_singleton_self _, rfl⟩

/-- The loop guard of `awaitForConfirmation` (`src/index.ts` lines 51-54):
`pendingInfo["confirmed-round"] !== null && pendingInfo["confirmed-round"] > 0`. -/
def confirmedRoundPositive (cr : Option Int) : Bool :=
  match cr with
  | some r => decide (0 < r)
  | none => false

/-- The polling loop of `awaitForConfirmation` (`src/index.ts` lines 44-61).
The node is modelled by the confirmed-round value each successive
`pendingTransactionInformation` poll reports; `polls` counts the polls already
made.  The `lastRound++ / statusAfterBlock` round tracking only delays the
next poll and does not affect the result, so it is not represented.  The source
loop is unbounded (`while (true)`); `fuel` bounds the number of iterations the
embedding is willing to unroll, `none` meaning the loop was still running after
`fuel` polls, and `some m` meaning the loop exited after exactly `m` polls. -/
def awaitLoop (node : Nat → Option Int) : Nat → Nat → Option Nat
  | 0, _ => none
  | fuel + 1, polls =>
    if confirmedRoundPositive (node polls) then some (polls + 1)
    else awaitLoop node fuel (polls + 1)

/-- `awaitForConfirmation(txId)` against a node trace, starting with zero polls
made. -/
def awaitForConfirmation (node : Nat → Option Int) (fuel : Nat) : Option Nat :=
  awaitLoop node fuel 0

theorem awaitLoop_returns_confirmed (node : Nat → Option Int) :
    ∀ fuel polls m, awaitLoop node fuel polls = some m →
      polls < m ∧ confirmedRoundPositive (node (m - 1)) = true ∧
      ∀ i, polls ≤ i → i < m - 1 → confirmedRoundPositive (node i) = false := by
  intro fuel
  induction fuel with
  | zero => intro polls m h; simp [awaitLoop] at h
  | succ n ih =>
    intro polls m h
    rw [awaitLoop] at h
    by_cases hc : confirmedRoundPositive (node polls) = true
    · rw [if_pos hc] at h
      obtain rfl : polls + 1 = m := Option.some.inj h
      refine ⟨Nat.lt_succ_self polls, by simpa using hc, ?_⟩
      intro i hpi him
      omega
    · rw [if_neg hc] at h
      obtain ⟨hlt, hpos, hprev⟩ := ih (polls + 1) m h
      refine ⟨Nat.lt_of_succ_lt hlt, hpos, ?_⟩
      intro i hpi him
      rcases Nat.lt_or_ge i (polls + 1) with hi | hi
      · obtain rfl : i = polls := by omega
        exact Bool.not_eq_true _ ▸ (by simpa using hc)
      · exact hprev i hi him

theorem awaitLoop_exact_polls (node : Nat → Option Int) :
    ∀ fuel polls n, (∀ i, polls ≤ i → i < n →
        confirmedRoundPositive (node i) = false) →
      confirmedRoundPositive (node n) = true → polls ≤ n → n < polls + fuel →
      awaitLoop node fuel polls = some (n + 1) := by
  intro fuel
  induction fuel with
  | zero => intro polls n _ _ _ hfuel; omega
  | succ k ih =>
    intro polls n hbefore hpos hge hfuel
    rw [awaitLoop]
    rcases Nat.eq_or_lt_of_le hge with rfl | hlt
    · rw [if_pos hpos]
    · rw [if_neg (by simp [hbefore polls (Nat.le_refl polls) hlt])]
      exact ih (polls + 1) n
        (fun i hpi hin => hbefore i (Nat.le_of_succ_le hpi) hin)
        hpos hlt (by omega)

/-- C4: the waiter returns only after observing a present and strictly
positive confirmed round: whenever it exits after `m` polls, poll `m - 1`
reported a positive round and every earlier poll did not; and against a node
that reports `null` for the first `N` polls and a positive round from poll `N`
on, it exits after exactly `N + 1` polls. -/
theorem waiter_confirms_exactly (node : Nat → Option Int) (fuel : Nat) :
    (∀ m, awaitForConfirmation node fuel = some m →
      1 ≤ m ∧ confirmedRoundPositive (node (m - 1)) = true ∧
      ∀ i, i < m - 1 → confirmedRoundPositive (node i) = false) ∧
    (∀ N, (∀ i, i < N → node i = none) →
      (∀ i, N ≤ i → ∃ r, node i = some r ∧ 0 < r) → N < fuel →
      awaitForConfirmation node fuel = some (N + 1)) := by
  constructor
  · intro m h
    obtain ⟨hlt, hpos, hprev⟩ := awaitLoop_returns_confirmed node fuel 0 m h
    exact ⟨hlt, hpos, fun i him => hprev i (Nat.zero_le i) him⟩
  · intro N hnull hposafter hfuel
    obtain ⟨r, hr, hrpos⟩ := hposafter N (Nat.le_refl N)
    refine awaitLoop_exact_polls node fuel 0 N ?_ ?_ (Nat.zero_le N)
      (by omega)
    · intro i _ hiN
      simp [confirmedRoundPositive, hnull i hiN]
    · simp [confirmedRoundPositive, hr, hrpos]

/-- Witness for C4: a node that reports `null` for the first two polls and
round 5 afterwards makes the waiter exit after exactly three polls. -/
theorem waiter_confirms_exactly_witness :
    awaitForConfirmation (fun i => if i < 2 then none else some 5) 10 =
      some 3 := by
  have h := (waiter_confirms_exactly
    (fun i => if i < 2 then none else some 5) 10).2 2
    (by intro i hi; simp [hi])
    (by intro i hi; exact ⟨5, by simp [Nat.not_lt.mpr hi], by norm_num⟩)
    (by norm_num)
  exact h

/-- C5: the source waiter has no bound parameter and no timeout state — against
a node that never reports a positive confirmed round it is still looping after
any number of iterations, for every fuel value, instead of terminating in a
TIMEOUT error state. -/
theorem waiter_never_times_out :
    ∀ fuel, awaitForConfirmation (fun _ => none) fuel = none := by
  have hgen : ∀ fuel polls,
      awaitLoop (fun _ => none) fuel polls = none := by
    intro fuel
    induction fuel with
    | zero => intro polls; rfl
    | succ k ih =>
      intro polls
      rw [awaitLoop]
      rw [if_neg (by simp [confirmedRoundPositive])]
      exact ih (polls + 1)
  intro fuel
  exact hgen fuel 0

/-- A node-reported state value `{type, bytes, uint}`; `type` and `uint` are
already carried through `parseInt`. -/
structure TealValue where
  type : Nat
  bytes : String
  uint : Nat
deriving DecidableEq

/-- One entry of a `global-state` or `key-value` array: `{key, value}`. -/
structure StateEntry where
  key : String
  value : TealValue
deriving DecidableEq

/-- The scalar a state read produces: the `string | number` return type of the
source readers. -/
inductive StateValue where
  | bytesVal (b : String)
  | uintVal (u : Nat)
deriving DecidableEq

/-- `getGlobalStateValue` (`src/index.ts` lines 403-434), applied to the
`global-state` array the node returned: filter on the key, `.pop()` the last
match, throw if there is none, then dispatch on the type discriminator. -/
def getGlobalStateValue (globalState : List StateEntry) (b64VarName : String) :
    Except UtilError StateValue :=
  let valueArray := globalState.filter (fun obj => obj.key == b64VarName)
  match valueArray.getLast? with
  | none => Except.error UtilError.noSuchGlobalState
  | some state =>
    if state.value.type = 1 then Except.ok (StateValue.bytesVal state.value.bytes)
    else if state.value.type = 2 then Except.ok (StateValue.uintVal state.value.uint)
    else Except.error UtilError.unhandledStateType

/-- `getLocalStateValue` (`src/index.ts` lines 462-499), applied to the
looked-up app info: `none` is a user who has not opted in (throws),
`some none` is an opted-in user whose `key-value` field is `undefined`
(returns `undefined`), `some (some appKV)` is the entry array, scanned like
the global reader but returning `undefined` instead of throwing on absence. -/
def getLocalStateValue (appInfo : Option (Option (List StateEntry)))
    (b64VarName : String) : Except UtilError (Option StateValue) :=
  match appInfo with
  | none => Except.error UtilError.notOptedIn
  | some none => Except.ok none
  | some (some appKV) =>
    match (appKV.filter (fun obj => obj.key == b64VarName)).getLast? with
    | none => Except.ok none
    | some v =>
      if v.value.type = 1 then
        Except.ok (some (StateValue.bytesVal v.value.bytes))
      else if v.value.type = 2 then
        Except.ok (some (StateValue.uintVal v.value.uint))
      else Except.error UtilError.unhandledStateType

/-- C6: when some entry matches the key, both state readers are determined by
the last matching entry: discriminator 1 returns its byte-string, 2 returns
its parsed unsigned integer, and anything else is the unhandled-type error. -/
theorem state_reader_last_match_dispatch (entries : List StateEntry)
    (k : String) (e : StateEntry)
    (hm : (entries.filter (fun o => o.key == k)).getLast? = some e) :
    (e.value.type = 1 →
      getGlobalStateValue entries k =
        Except.ok (StateValue.bytesVal e.value.bytes) ∧
      getLocalStateValue (some (some entries)) k =
        Except.ok (some (StateValue.bytesVal e.value.bytes))) ∧
    (e.value.type = 2 →
      getGlobalStateValue entries k =
        Except.ok (StateValue.uintVal e.value.uint) ∧
      getLocalStateValue (some (some entries)) k =
        Except.ok (some (StateValue.uintVal e.value.uint))) ∧
    (e.value.type ≠ 1 → e.value.type ≠ 2 →
      getGlobalStateValue entries k =
        Except.error UtilError.unhandledStateType ∧
      getLocalStateValue (some (some entries)) k =
        Except.error UtilError.unhandledStateType) := by
  have hg : getGlobalStateValue entries k =
      (if e.value.type = 1 then
        Except.ok (StateValue.bytesVal e.value.bytes)
      else if e.value.type = 2 then Except.ok (StateValue.uintVal e.value.uint)
      else Except.error UtilError.unhandledStateType) := by
    simp only [getGlobalStateValue]
    rw [hm]
  have hl : getLocalStateValue (some (some entries)) k =
      (if e.value.type = 1 then
        Except.ok (some (StateValue.bytesVal e.value.bytes))
      else if e.value.type = 2 then
        Except.ok (some (StateValue.uintVal e.value.uint))
      else Except.error UtilError.unhandledStateType) := by
    simp only [getLocalStateValue]
    rw [hm]
  refine ⟨?_, ?_, ?_⟩
  · intro h1
    rw [hg, hl, if_pos h1, if_pos h1]
    exact ⟨rfl, rfl⟩
  · intro h2
    have h1 : ¬ e.value.type = 1 := by omega
    rw [hg, hl, if_neg h1, if_neg h1, if_pos h2, if_pos h2]
    exact ⟨rfl, rfl⟩
  · intro h1 h2
    rw [hg, hl, if_neg h1, if_neg h1, if_neg h2, if_neg h2]
    exact ⟨rfl, rfl⟩

/-- Witness for C6 at the spec's own example: two entries under key "k", the
last of type 2 with uint 5; both readers return the uint 5. -/
theorem state_reader_last_match_dispatch_witness :
    getGlobalStateValue
        [⟨"k", ⟨1, "QQ==", 0⟩⟩, ⟨"k", ⟨2, "", 5⟩⟩] "k" =
      Except.ok (StateValue.uintVal 5) ∧
    getLocalStateValue
        (some (some [⟨"k", ⟨1, "QQ==", 0⟩⟩, ⟨"k", ⟨2, "", 5⟩⟩])) "k" =
      Except.ok (some (StateValue.uintVal 5)) := by
  have h := (state_reader_last_match_dispatch
    [⟨"k", ⟨1, "QQ==", 0⟩⟩, ⟨"k", ⟨2, "", 5⟩⟩] "k" ⟨"k", ⟨2, "", 5⟩⟩
    (by rfl)).2.1 rfl
  exact h

/-- C7 counterexample: on an absent key the global state reader raises an
error ("No such global state variable.") instead of returning an explicit
absent value. -/
theorem global_state_absent_throws :
    getGlobalStateValue [⟨"a", ⟨2, "", 5⟩⟩] "missing" =
      Except.error UtilError.noSuchGlobalState := by rfl

/-- C7 amended: on an absent key the local state reader returns the explicit
absent value without error, while the global state reader fails with the
no-such-variable error. -/
theorem state_reader_absent_key (entries : List StateEntry) (k : String)
    (h : ∀ e ∈ entries, e.key ≠ k) :
    getLocalStateValue (some (some entries)) k = Except.ok none ∧
    getGlobalStateValue entries k =
      Except.error UtilError.noSuchGlobalState := by
  have hfil : entries.filter (fun o => o.key == k) = [] :=
    List.filter_eq_nil_iff.mpr (fun a ha => by simp [h a ha])
  constructor
  · simp only [getLocalStateValue]
    rw [hfil]
    rfl
  · simp only [getGlobalStateValue]
    rw [hfil]
    rfl

/-- Witness for the amended C7 at the spec's example key "missing". -/
theorem state_reader_absent_key_witness :
    getLocalStateValue (some (some [⟨"a", ⟨2, "", 5⟩⟩])) "missing" =
      Except.ok none ∧
    getGlobalStateValue [⟨"a", ⟨2, "", 5⟩⟩] "missing" =
      Except.error UtilError.noSuchGlobalState :=
  state_reader_absent_key [⟨"a", ⟨2, "", 5⟩⟩] "missing"
    (by intro e he; simp at he; rw [he]; decide)

/-- JavaScript truthiness of a possibly-absent string: `undefined`/`null` and
the empty string are falsy. -/
def jsFalsyStr : Option String → Bool
  | none => true
  | some s => s == ""

/-- The merge loop of `WalletConnectSigner.getSignedB64Txns`
(`WalletConnectSigner.ts` lines 31-39): for each response index, a falsy
entry is replaced by the original `stxn` of the request at the same position
(possibly itself absent); a non-falsy entry is kept. -/
def mergeSignedB64Txns (txnsToSign : List SignTxnRequest)
    (resp : List (Option String)) : List (Option String) :=
  (List.range resp.length).map (fun i =>
    if jsFalsyStr ((resp[i]?).join) then (txnsToSign[i]?).bind SignTxnRequest.stxn
    else (resp[i]?).join)

/-- `WalletConnectSigner.sign` (`WalletConnectSigner.ts` lines 41-53): decode
each merged base64 entry to bytes (`element ? new Uint8Array(...) : null`). -/
def walletConnectSign (txnsToSign : List SignTxnRequest)
    (resp : List (Option String)) : List (Option (List Nat)) :=
  (mergeSignedB64Txns txnsToSign resp).map (fun e =>
    if jsFalsyStr e then none else some (bytesOfB64 (e.getD "")))

theorem merge_getElem (txnsToSign : List SignTxnRequest)
    (resp : List (Option String)) (i : Nat) (hi : i < resp.length) :
    (mergeSignedB64Txns txnsToSign resp)[i]? =
      some (if jsFalsyStr ((resp[i]?).join) then
        (txnsToSign[i]?).bind SignTxnRequest.stxn
      else (resp[i]?).join) := by
  unfold mergeSignedB64Txns
  rw [List.getElem?_map, List.getElem?_range hi]
  rfl

/-- C8: with a response positionally aligned to the batch, a falsy response
entry makes the output fall back to the input's original `stxn` — decoded if
one existed, still absent otherwise — while a non-empty response entry is
decoded into the output. -/
theorem remote_signer_positional_merge (txnsToSign : List SignTxnRequest)
    (resp : List (Option String)) (_hlen : resp.length = txnsToSign.length) :
    ∀ i, i < resp.length →
      (∀ r, resp[i]? = some r → jsFalsyStr r = true →
        (mergeSignedB64Txns txnsToSign resp)[i]? =
          some ((txnsToSign[i]?).bind SignTxnRequest.stxn) ∧
        (∀ s, (txnsToSign[i]?).bind SignTxnRequest.stxn = some s → ¬ s = "" →
          (walletConnectSign txnsToSign resp)[i]? =
            some (some (bytesOfB64 s))) ∧
        ((txnsToSign[i]?).bind SignTxnRequest.stxn = none →
          (walletConnectSign txnsToSign resp)[i]? = some none)) ∧
      (∀ s, resp[i]? = some (some s) → ¬ s = "" →
        (walletConnectSign txnsToSign resp)[i]? =
          some (some (bytesOfB64 s))) := by
  intro i hi
  have hsign : (walletConnectSign txnsToSign resp)[i]? =
      ((mergeSignedB64Txns txnsToSign resp)[i]?).map (fun e =>
        if jsFalsyStr e then none else some (bytesOfB64 (e.getD ""))) := by
    unfold walletConnectSign
    rw [List.getElem?_map]
  constructor
  · intro r hr hfalsy
    have hmerge : (mergeSignedB64Txns txnsToSign resp)[i]? =
        some ((txnsToSign[i]?).bind SignTxnRequest.stxn) := by
      rw [merge_getElem txnsToSign resp i hi, hr]
      simp [Option.join, hfalsy]
    refine ⟨hmerge, ?_, ?_⟩
    · intro s hs hne
      rw [hsign, hmerge, hs]
      simp [jsFalsyStr, hne]
    · intro hnone
      rw [hsign, hmerge, hnone]
      simp [jsFalsyStr]
  · intro s hr hne
    have hmerge : (mergeSignedB64Txns txnsToSign resp)[i]? = some (some s) := by
      rw [merge_getElem txnsToSign resp i hi, hr]
      simp [Option.join, jsFalsyStr, hne]
    rw [hsign, hmerge]
    simp [jsFalsyStr, hne]

/-- Concrete batch for the C8 witness: slots 0 and 1 carry an original signed
encoding, slot 2 is unsigned. -/
def c8Txns : List SignTxnRequest :=
  [{ txn := "t0", message := "m", stxn := some "X" },
   { txn := "t1", message := "m", stxn := some "Y" },
   { txn := "t2", message := "m" }]

/-- Concrete remote response for the C8 witness: completed at 0, falsy (empty
string) at 1, falsy (null) at 2. -/
def c8Resp : List (Option String) := [some "A", some "", none]

/-- Witness for C8: index 0 is the decoded response, index 1 falls back to the
decoded original `stxn`, index 2 stays unsigned. -/
theorem remote_signer_positional_merge_witness :
    (walletConnectSign c8Txns c8Resp)[0]? = some (some (bytesOfB64 "A")) ∧
    (walletConnectSign c8Txns c8Resp)[1]? = some (some (bytesOfB64 "Y")) ∧
    (walletConnectSign c8Txns c8Resp)[2]? = some none := by
  have h := remote_signer_positional_merge c8Txns c8Resp rfl
  refine ⟨?_, ?_, ?_⟩
  · exact (h 0 (by decide)).2 "A" rfl (by decide)
  · exact ((h 1 (by decide)).1 (some "") rfl rfl).2.1 "Y" rfl (by decide)
  · exact ((h 2 (by decide)).1 none rfl rfl).2.2 rfl

/-- A dynamically-typed JavaScript field value of an envelope object. -/
inductive JSVal where
  | str (s : String)
  | wallets (ws : List Wallet)
deriving DecidableEq

/-- The JavaScript object an envelope presents to `Object.keys`: `txn` and
`message` always, `stxn` and `signers` only when set. -/
def objOfRequest (e : SignTxnRequest) : List (String × JSVal) :=
  [("txn", JSVal.str e.txn), ("message", JSVal.str e.message)] ++
  (match e.stxn with
   | some s => [("stxn", JSVal.str s)]
   | none => []) ++
  (match e.signers with
   | some ws => [("signers", JSVal.wallets ws)]
   | none => [])

/-- `const validParams = ["signers", "txn", "message"]`
(`WalletConnectSigner.ts` line 15). -/
def validParams : List String := ["signers", "txn", "message"]

/-- The cleaning loop of `getSignedB64Txns` (`WalletConnectSigner.ts` lines
16-24): keep exactly the keys of the input object that are in `validParams`. -/
def cleanTxnForRequest (o : List (String × JSVal)) : List (String × JSVal) :=
  o.filter (fun kv => validParams.contains kv.1)

/-- The outbound signing request payload: every envelope cleaned. -/
def requestTxnsToSign (txnsToSign : List SignTxnRequest) :
    List (List (String × JSVal)) :=
  txnsToSign.map (fun e => cleanTxnForRequest (objOfRequest e))

theorem cleanTxnForRequest_objOfRequest (e : SignTxnRequest) :
    cleanTxnForRequest (objOfRequest e) =
      [("txn", JSVal.str e.txn), ("message", JSVal.str e.message)] ++
      (match e.signers with
       | some ws => [("signers", JSVal.wallets ws)]
       | none => []) := by
  cases hst : e.stxn <;> cases hsg : e.signers <;>
    simp [cleanTxnForRequest, objOfRequest, validParams, hst, hsg,
      List.filter_append, List.filter]

/-- C9: the outbound per-envelope object carries only fields among
`{signers, txn, message}` that the input envelope had, with their input
values; the locally held `stxn` never appears; and the request is invariant
under changes to any field outside `{signers, txn, message}`. -/
theorem remote_request_strips_private_fields :
    (∀ e : SignTxnRequest, ∀ kv ∈ cleanTxnForRequest (objOfRequest e),
      kv.1 ∈ validParams ∧ kv ∈ objOfRequest e) ∧
    (∀ (e : SignTxnRequest) (v : JSVal),
      ("stxn", v) ∉ cleanTxnForRequest (objOfRequest e)) ∧
    (∀ e e' : SignTxnRequest, e.txn = e'.txn → e.message = e'.message →
      e.signers = e'.signers →
      cleanTxnForRequest (objOfRequest e) =
        cleanTxnForRequest (objOfRequest e')) := by
  refine ⟨?_, ?_, ?_⟩
  · intro e kv hkv
    have hmem := List.mem_filter.mp hkv
    refine ⟨?_, hmem.1⟩
    have hc := hmem.2
    simpa using hc
  · intro e v hmem
    rw [cleanTxnForRequest_objOfRequest] at hmem
    cases hsg : e.signers <;> rw [hsg] at hmem <;> simp at hmem
  · intro e e' htxn hmsg hsg
    rw [cleanTxnForRequest_objOfRequest, cleanTxnForRequest_objOfRequest,
      htxn, hmsg, hsg]

/-- Witness for C9: two envelopes that differ only in their `stxn` field
produce the same outbound request object. -/
theorem remote_request_strips_private_fields_witness :
    cleanTxnForRequest (objOfRequest
        { txn := "t", message := "m", stxn := some "SECRET",
          signers := some [] }) =
      cleanTxnForRequest (objOfRequest
        { txn := "t", message := "m", signers := some [] }) :=
  remote_request_strips_private_fields.2.2
    { txn := "t", message := "m", stxn := some "SECRET", signers := some [] }
    { txn := "t", message := "m", signers := some [] } rfl rfl rfl

/-- The iteration order of `new Set(assets)`: keep the first occurrence of
each element, remembering in `seen` what has already been emitted. -/
def setDedupGo (seen : List Nat) : List Nat → List Nat
  | [] => []
  | x :: xs =>
    if x ∈ seen then setDedupGo seen xs else x :: setDedupGo (x :: seen) xs

/-- `[...new Set(assets)]` (`src/index.ts` line 343): insertion-ordered
deduplication. -/
def jsSetDedup (l : List Nat) : List Nat := setDedupGo [] l

theorem setDedupGo_mem (l : List Nat) : ∀ (seen : List Nat) (a : Nat),
    a ∈ setDedupGo seen l ↔ a ∈ l ∧ a ∉ seen := by
  induction l with
  | nil => intro seen a; simp [setDedupGo]
  | cons x xs ih =>
    intro seen a
    simp only [setDedupGo]
    by_cases hx : x ∈ seen
    · rw [if_pos hx, ih]
      constructor
      · rintro ⟨ha, hs⟩
        exact ⟨List.mem_cons_of_mem x ha, hs⟩
      · rintro ⟨ha, hs⟩
        rcases List.mem_cons.mp ha with rfl | h
        · exact absurd hx hs
        · exact ⟨h, hs⟩
    · rw [if_neg hx]
      constructor
      · intro h
        rcases List.mem_cons.mp h with rfl | h2
        · exact ⟨List.mem_cons_self _ _, hx⟩
        · obtain ⟨ha, hs⟩ := (ih (x :: seen) a).mp h2
          exact ⟨List.mem_cons_of_mem _ ha,
            fun hc => hs (List.mem_cons_of_mem _ hc)⟩
      · rintro ⟨ha, hs⟩
        rcases List.mem_cons.mp ha with rfl | h2
        · exact List.mem_cons_self _ _
        · by_cases hax : a = x
          · subst hax; exact List.mem_cons_self _ _
          · refine List.mem_cons_of_mem _ ((ih (x :: seen) a).mpr ⟨h2, ?_⟩)
            intro hc
            rcases List.mem_cons.mp hc with h3 | h3
            · exact hax h3
            · exact hs h3

theorem setDedupGo_nodup (l : List Nat) : ∀ seen, (setDedupGo seen l).Nodup := by
  induction l with
  | nil => intro seen; simp [setDedupGo]
  | cons x xs ih =>
    intro seen
    simp only [setDedupGo]
    by_cases hx : x ∈ seen
    · rw [if_pos hx]; exact ih seen
    · rw [if_neg hx]
      refine List.nodup_cons.mpr ⟨?_, ih (x :: seen)⟩
      intro hc
      exact ((setDedupGo_mem xs (x :: seen) x).mp hc).2 (List.mem_cons_self x seen)

theorem setDedupGo_sublist (l : List Nat) :
    ∀ seen, (setDedupGo seen l).Sublist l := by
  induction l with
  | nil => intro seen; simp [setDedupGo]
  | cons x xs ih =>
    intro seen
    simp only [setDedupGo]
    by_cases hx : x ∈ seen
    · rw [if_pos hx]; exact (ih seen).cons x
    · rw [if_neg hx]; exact (ih (x :: seen)).cons₂ x

theorem setDedupGo_seen_congr (l : List Nat) : ∀ s₁ s₂ : List Nat,
    (∀ y : Nat, y ∈ s₁ ↔ y ∈ s₂) → setDedupGo s₁ l = setDedupGo s₂ l := by
  induction l with
  | nil => intro s₁ s₂ _; rfl
  | cons x xs ih =>
    intro s₁ s₂ h
    simp only [setDedupGo]
    by_cases hx : x ∈ s₁
    · rw [if_pos hx, if_pos ((h x).mp hx)]
      exact ih s₁ s₂ h
    · rw [if_neg hx, if_neg (fun hc => hx ((h x).mpr hc))]
      rw [ih (x :: s₁) (x :: s₂) (fun y => by simp [List.mem_cons, h y])]

theorem setDedupGo_cons_seen (l : List Nat) : ∀ (seen : List Nat) (a : Nat),
    setDedupGo (a :: seen) l =
      (setDedupGo seen l).filter (fun y => y != a) := by
  induction l with
  | nil => intro seen a; rfl
  | cons x xs ih =>
    intro seen a
    simp only [setDedupGo]
    by_cases hxa : x = a
    · subst hxa
      rw [if_pos (List.mem_cons_self x seen)]
      by_cases hxs : x ∈ seen
      · rw [if_pos hxs]
        exact ih seen x
      · rw [if_neg hxs, List.filter_cons]
        simp only [bne_self_eq_false, Bool.false_eq_true, if_false]
        refine (List.filter_eq_self.mpr ?_).symm.trans rfl
        intro a ha
        have hmem := (setDedupGo_mem xs (x :: seen) a).mp ha
        have hax : a ≠ x := fun hc => hmem.2 (hc ▸ List.mem_cons_self x seen)
        simpa using hax
    · have hiff : x ∈ a :: seen ↔ x ∈ seen := by simp [List.mem_cons, hxa]
      by_cases hxs : x ∈ seen
      · rw [if_pos (hiff.mpr hxs), if_pos hxs]
        exact ih seen a
      · rw [if_neg (fun hc => hxs (hiff.mp hc)), if_neg hxs, List.filter_cons]
        have hbne : (x != a) = true := by simpa using hxa
        rw [hbne]
        simp only [if_true]
        congr 1
        rw [← ih (x :: seen) a]
        exact setDedupGo_seen_congr xs (x :: a :: seen) (a :: x :: seen)
          (fun y => by simp [List.mem_cons]; tauto)

theorem jsSetDedup_first_occurrence (x : Nat) (xs : List Nat) :
    jsSetDedup (x :: xs) = x :: (jsSetDedup xs).filter (fun y => y != x) := by
  unfold jsSetDedup
  simp only [setDedupGo]
  rw [if_neg (List.not_mem_nil x)]
  congr 1
  exact setDedupGo_cons_seen xs [] x

/-- The opt-in transaction built for one asset index
(`src/index.ts` lines 347-355): a zero-amount self transfer of the asset. -/
def makeAssetOptInTxn (walletAddr : String) (assetIndex : Nat) : Txn :=
  { sender := walletAddr, receiver := walletAddr, assetIndex := assetIndex,
    amount := 0 }

/-- `optInAssetsAsGroupTransaction(assets, walletAddr, wallet)`
(`src/index.ts` lines 337-361): deduplicate, build one opt-in transaction per
remaining asset, and hand the batch to the group signing operation with the
same wallet in every slot. -/
def optInAssetsAsGroupTransaction (assets : List Nat) (walletAddr : String)
    (wallet : FalseyWallet) : Except UtilError (List SignTxnRequest) :=
  let deduped := jsSetDedup assets
  let assetOptInTxns := deduped.map (makeAssetOptInTxn walletAddr)
  generateGroupTransactionSigningRequest assetOptInTxns
    (List.replicate deduped.length wallet)

theorem signSlotPure_txn (g : List Txn) (a : List FalseyWallet) (i : Nat) :
    (signSlotPure g a i).txn =
      b64OfBytes (encodeUnsignedTransaction (g.getD i default)) := by
  unfold signSlotPure
  cases hsk : (walletAt a i).bind Wallet.sk <;> rfl

/-- C10: the group asset opt-in operation removes duplicate asset identifiers
first — the deduplicated list has no duplicates, the same members as the
input, and is the first-occurrence subsequence of the input — and returns
exactly one envelope per remaining identifier, the envelope at index `i`
encoding the opt-in transaction for the `i`-th deduplicated identifier with
the batch group id. -/
theorem optin_dedup_envelopes (assets : List Nat) (walletAddr : String)
    (wallet : FalseyWallet) :
    (jsSetDedup assets).Nodup ∧
    (∀ a, a ∈ jsSetDedup assets ↔ a ∈ assets) ∧
    (jsSetDedup assets).Sublist assets ∧
    (∀ (x : Nat) (xs : List Nat), jsSetDedup (x :: xs) =
      x :: (jsSetDedup xs).filter (fun y => y != x)) ∧
    ∃ res, optInAssetsAsGroupTransaction assets walletAddr wallet =
        Except.ok res ∧
      res.length = (jsSetDedup assets).length ∧
      ∀ i, i < (jsSetDedup assets).length →
        ∃ req, res[i]? = some req ∧
          req.txn = b64OfBytes (encodeUnsignedTransaction
            { sender := walletAddr, receiver := walletAddr,
              assetIndex := (jsSetDedup assets).getD i 0, amount := 0,
              group := some (computeGroupID ((jsSetDedup assets).map
                (makeAssetOptInTxn walletAddr))) }) := by
  refine ⟨setDedupGo_nodup assets [], ?_, setDedupGo_sublist assets [],
    jsSetDedup_first_occurrence, ?_⟩
  · intro a
    have h := setDedupGo_mem assets [] a
    simpa [jsSetDedup] using h
  · have hopt : optInAssetsAsGroupTransaction assets walletAddr wallet =
        generateGroupTransactionSigningRequest
          ((jsSetDedup assets).map (makeAssetOptInTxn walletAddr))
          (List.replicate (jsSetDedup assets).length wallet) := rfl
    refine ⟨_, hopt.trans (generate_eq_map _ _), by simp, ?_⟩
    intro i hi
    have hitxns : i <
        ((jsSetDedup assets).map (makeAssetOptInTxn walletAddr)).length := by
      simpa using hi
    refine ⟨_, generate_getElem _ _ i hitxns, ?_⟩
    rw [signSlotPure_txn]
    congr 1
    have hlen2 : i < (assignGroupID ((jsSetDedup assets).map
        (makeAssetOptInTxn walletAddr))).length := by
      simpa [assignGroupID] using hi
    rw [List.getD_eq_getElem _ _ hlen2]
    rw [List.getD_eq_getElem _ _ hi]
    simp [assignGroupID, List.getElem_map, makeAssetOptInTxn]

/-- Witness for C10: `[5, 7, 5, 5, 8]` yields three envelopes, the first of
which encodes the opt-in for asset 5 with the batch group id. -/
theorem optin_dedup_envelopes_witness :
    ∃ res, optInAssetsAsGroupTransaction [5, 7, 5, 5, 8] "W" none =
        Except.ok res ∧
      res.length = (jsSetDedup [5, 7, 5, 5, 8]).length ∧
      (jsSetDedup [5, 7, 5, 5, 8]).length = 3 ∧
      ∃ req, res[0]? = some req ∧
        req.txn = b64OfBytes (encodeUnsignedTransaction
          { sender := "W", receiver := "W",
            assetIndex := (jsSetDedup [5, 7, 5, 5, 8]).getD 0 0, amount := 0,
            group := some (computeGroupID ((jsSetDedup [5, 7, 5, 5, 8]).map
              (makeAssetOptInTxn "W"))) }) := by
  obtain ⟨res, hres, hlen, hslot⟩ :=
    (optin_dedup_envelopes [5, 7, 5, 5, 8] "W" none).2.2.2.2
  obtain ⟨req, hreq, htxn⟩ := hslot 0 (by decide)
  exact ⟨res, hres, hlen, by decide, req, hreq, htxn⟩

end AlgorandUtil
